import Mathlib

/-!
Verification development for the BoardGamesRecorder synchronization subsystem.

Shallow embedding of `src/backend/crud.py` (`sync_games_from_bgg` and the
game lookups it uses), `src/backend/bgg_integration.py`
(`fetch_user_collection`, `_parse_collection_xml`, `_extract_game_from_xml`,
`_rate_limit`) and the relevant rows of `src/backend/models.py`.

Modelling conventions:
- The SQLAlchemy session is an explicit `Store` value (lists of rows); queries
  see pending in-session changes (SQLAlchemy autoflush), so lookups read the
  current list.  Row updates are positional (`modifyAt`), mirroring mutation
  of the ORM object returned by `query(...).first()`.
- Python `dict.get` on the parser-produced record dictionaries is modelled
  with `Option` fields: the parser always stores a non-missing value for a
  present field, so `get(k, d)` is `Option.getD` on the field.
- The batch commit either succeeds or raises; this external outcome is the
  explicit `commitFails` argument, with rollback restoring the store as it
  was at call entry (the only commit of the call is the final one).
- Wall-clock time is a rational number; `time.sleep` is exact and
  `time.time()` is monotone in the idealized clock used for `rate_limit`.
- Python `float` values only flow through the code unchanged, so ratings are
  embedded as `ℚ`; `int(s)` is `String.toInt?` and `float(s)` a decimal
  parser (`pyFloat`), adequate for the decimal literals the API serves.
-/

namespace BGR

/-- A row of the `games` table (`models.py`, class `Game`). -/
structure Game where
  id : Nat
  name : String
  bgg_id : Option Int := none
  year_published : Option Int := none
  thumbnail_url : Option String := none
  image_url : Option String := none
  min_players : Option Int := none
  max_players : Option Int := none
  playing_time : Option Int := none
  bgg_rating : Option ℚ := none
  is_from_bgg : Bool := false
  last_synced : Option Nat := none
deriving DecidableEq, Repr

/-- A row of the `players` table (`models.py`, class `Player`). -/
structure Player where
  id : Nat
  name : String
deriving DecidableEq, Repr

/-- A row of the `matches` table (`models.py`, class `Match`). -/
structure MatchRow where
  id : Nat
  game_id : Nat
  winner_id : Nat
  date_played : Nat
deriving DecidableEq, Repr

/-- The relational store seen through one SQLAlchemy session.  `next_game_id`
models primary-key assignment for rows added by `db.add`. -/
structure Store where
  games : List Game
  players : List Player
  matchRows : List MatchRow
  next_game_id : Nat
deriving DecidableEq, Repr

/-- A normalized catalog record: the dictionary built by
`_extract_game_from_xml` and consumed by `sync_games_from_bgg`. -/
structure GameData where
  bgg_id : Option Int := none
  name : Option String := none
  year_published : Option Int := none
  thumbnail_url : Option String := none
  image_url : Option String := none
  min_players : Option Int := none
  max_players : Option Int := none
  playing_time : Option Int := none
  bgg_rating : Option ℚ := none
deriving DecidableEq, Repr

/-- The result dictionary returned by `sync_games_from_bgg`. -/
structure SyncResult where
  success : Bool
  games_added : Nat
  games_updated : Nat
  errors : List String
  total_games : Nat
deriving DecidableEq, Repr

/-- Default game row, used only as the `getD` fallback in statements. -/
def dGame : Game := { id := 0, name := "" }

/-! ### List helpers

`firstIdxWhere` is the index of the first row satisfying a predicate, i.e.
the row `query(...).first()` returns; `modifyAt` is in-place mutation of that
row. -/

/-- Index of the first element satisfying `p` (`query(...).first()`). -/
def firstIdxWhere (p : α → Bool) : List α → Option Nat
  | [] => none
  | x :: xs => if p x then some 0 else (firstIdxWhere p xs).map (· + 1)

/-- Replace the element at index `k` by its image under `f`; out-of-range
indices leave the list unchanged. -/
def modifyAt (f : α → α) : Nat → List α → List α
  | _, [] => []
  | 0, x :: xs => f x :: xs
  | k + 1, x :: xs => x :: modifyAt f k xs

theorem length_modifyAt (f : α → α) (k : Nat) (l : List α) :
    (modifyAt f k l).length = l.length := by
  induction l generalizing k with
  | nil => cases k <;> rfl
  | cons x xs ih =>
      cases k with
      | zero => rfl
      | succ k => simp [modifyAt, ih]

theorem getD_modifyAt_self (f : α → α) (k : Nat) (l : List α) (d : α)
    (hk : k < l.length) : (modifyAt f k l).getD k d = f (l.getD k d) := by
  induction l generalizing k with
  | nil => simp at hk
  | cons x xs ih =>
      cases k with
      | zero => simp [modifyAt]
      | succ k =>
          simp only [modifyAt, List.getD_cons_succ]
          exact ih k (by simpa using hk)

theorem getD_modifyAt_ne (f : α → α) (k j : Nat) (l : List α) (d : α)
    (hkj : j ≠ k) : (modifyAt f k l).getD j d = l.getD j d := by
  induction l generalizing k j with
  | nil => cases k <;> rfl
  | cons x xs ih =>
      cases k with
      | zero =>
          cases j with
          | zero => exact absurd rfl hkj
          | succ j => simp [modifyAt]
      | succ k =>
          cases j with
          | zero => simp [modifyAt]
          | succ j =>
              simp only [modifyAt, List.getD_cons_succ]
              exact ih k j (fun h => hkj (by omega))

theorem getD_append_left (l : List α) (x d : α) (k : Nat) (hk : k < l.length) :
    (l ++ [x]).getD k d = l.getD k d := by
  induction l generalizing k with
  | nil => simp at hk
  | cons y ys ih =>
      cases k with
      | zero => rfl
      | succ k =>
          simp only [List.cons_append, List.getD_cons_succ]
          exact ih k (by simpa using hk)

theorem getD_append_last (l : List α) (x d : α) :
    (l ++ [x]).getD l.length d = x := by
  induction l with
  | nil => rfl
  | cons y ys ih =>
      simp only [List.cons_append, List.length_cons, List.getD_cons_succ]
      exact ih

theorem firstIdxWhere_none {p : α → Bool} {l : List α}
    (h : firstIdxWhere p l = none) : ∀ x ∈ l, p x = false := by
  induction l with
  | nil => intro x hx; simp at hx
  | cons y ys ih =>
      intro x hx
      simp only [firstIdxWhere] at h
      by_cases hy : p y
      · simp [hy] at h
      · rw [if_neg hy] at h
        rcases hmap : firstIdxWhere p ys with _ | j
        · rcases List.mem_cons.mp hx with hx | hx
          · subst hx; simpa using hy
          · exact ih hmap x hx
        · rw [hmap] at h; simp at h

theorem firstIdxWhere_some_lt {p : α → Bool} {l : List α} {k : Nat}
    (h : firstIdxWhere p l = some k) : k < l.length := by
  induction l generalizing k with
  | nil => simp [firstIdxWhere] at h
  | cons y ys ih =>
      simp only [firstIdxWhere] at h
      by_cases hy : p y
      · rw [if_pos hy] at h
        have hk0 : k = 0 := by simpa using h.symm
        subst hk0; simp
      · rw [if_neg hy] at h
        rcases hmap : firstIdxWhere p ys with _ | j
        · rw [hmap] at h; simp at h
        · rw [hmap] at h
          have hkj : k = j + 1 := by simpa using h.symm
          subst hkj
          have := ih hmap
          simp only [List.length_cons]
          omega

theorem firstIdxWhere_some_sat {p : α → Bool} {l : List α} {k : Nat} (d : α)
    (h : firstIdxWhere p l = some k) : p (l.getD k d) = true := by
  induction l generalizing k with
  | nil => simp [firstIdxWhere] at h
  | cons y ys ih =>
      simp only [firstIdxWhere] at h
      by_cases hy : p y
      · rw [if_pos hy] at h
        have hk0 : k = 0 := by simpa using h.symm
        subst hk0; simpa using hy
      · rw [if_neg hy] at h
        rcases hmap : firstIdxWhere p ys with _ | j
        · rw [hmap] at h; simp at h
        · rw [hmap] at h
          have hkj : k = j + 1 := by simpa using h.symm
          subst hkj
          simpa using ih hmap

theorem firstIdxWhere_isSome_of_sat {p : α → Bool} {l : List α} {k : Nat} (d : α)
    (hk : k < l.length) (hp : p (l.getD k d) = true) :
    firstIdxWhere p l ≠ none := by
  intro hnone
  have hmem : l.getD k d ∈ l := by
    rw [List.getD_eq_getElem?_getD, List.getElem?_eq_getElem hk]
    exact List.getElem_mem hk
  have := firstIdxWhere_none hnone (l.getD k d) hmem
  rw [hp] at this
  exact Bool.noConfusion this

/-! ### Reconciler (`crud.py`, `sync_games_from_bgg` and lookups) -/

/-- Source `crud.get_game_by_bgg_id`: `db.query(Game).filter(Game.bgg_id == bgg_id).first()`. -/
def get_game_by_bgg_id (games : List Game) (i : Int) : Option Game :=
  games.find? (fun g => g.bgg_id == some i)

/-- Index of the row `get_game_by_bgg_id` returns. -/
def idxByBggId (games : List Game) (i : Int) : Option Nat :=
  firstIdxWhere (fun g => g.bgg_id == some i) games

/-- Python `str.lower()` on one character, for the ASCII names at play. -/
def lowerChar (c : Char) : Char :=
  if 'A' ≤ c ∧ c ≤ 'Z' then Char.ofNat (c.toNat + 32) else c

/-- Python `str.lower()` / SQL `func.lower`, the common collation both
lookup paths use (ASCII case folding suffices for the names at play). -/
def pyLower (s : String) : String :=
  String.mk (s.data.map lowerChar)

/-- Index of the row returned by the case-insensitive name lookup
`db.query(Game).filter(func.lower(Game.name) == name.lower()).first()`. -/
def idxByLowerName (games : List Game) (nm : String) : Option Nat :=
  firstIdxWhere (fun g => pyLower g.name == pyLower nm) games

/-- Python truthiness of `bgg_id = game_data.get('bgg_id')`: `None` and the
integer `0` are both falsy in `if not bgg_id`. -/
def bggIdTruthy : Option Int → Option Int
  | none => none
  | some i => if i = 0 then none else some i

/-- The field writes of the "existing game found by BGG id" branch
(`crud.py` lines 277-288).  `bgg_id` is not assigned there. -/
def updateFromRecord (g : Game) (r : GameData) (t : Nat) : Game :=
  { g with
    name := r.name.getD g.name
    year_published := r.year_published
    thumbnail_url := r.thumbnail_url
    image_url := r.image_url
    min_players := r.min_players
    max_players := r.max_players
    playing_time := r.playing_time
    bgg_rating := r.bgg_rating
    is_from_bgg := true
    last_synced := some t }

/-- The field writes of the "name conflict" branch (`crud.py` lines 295-307):
the BGG id is attached and the enrichment fields overwritten, but the row's
`name` is left as it was. -/
def attachBggToNameMatch (g : Game) (r : GameData) (i : Int) (t : Nat) : Game :=
  { g with
    bgg_id := some i
    year_published := r.year_published
    thumbnail_url := r.thumbnail_url
    image_url := r.image_url
    min_players := r.min_players
    max_players := r.max_players
    playing_time := r.playing_time
    bgg_rating := r.bgg_rating
    is_from_bgg := true
    last_synced := some t }

/-- The new row built in the "create new game" branch (`crud.py` lines 309-323),
with the primary key the store will assign at flush. -/
def newGameFromRecord (idv : Nat) (r : GameData) (i : Int) (t : Nat) : Game :=
  { id := idv
    name := r.name.getD "Unknown"
    bgg_id := some i
    year_published := r.year_published
    thumbnail_url := r.thumbnail_url
    image_url := r.image_url
    min_players := r.min_players
    max_players := r.max_players
    playing_time := r.playing_time
    bgg_rating := r.bgg_rating
    is_from_bgg := true
    last_synced := some t }

/-- One iteration of the per-record loop of `sync_games_from_bgg`
(`crud.py` lines 266-329). -/
def processRecord (db : Store) (res : SyncResult) (r : GameData) (t : Nat) :
    Store × SyncResult :=
  match bggIdTruthy r.bgg_id with
  | none =>
      (db, { res with
              errors := res.errors ++
                ["Game missing BGG ID: " ++ r.name.getD "Unknown"] })
  | some i =>
      match idxByBggId db.games i with
      | some k =>
          ({ db with games := modifyAt (fun g => updateFromRecord g r t) k db.games },
           { res with games_updated := res.games_updated + 1 })
      | none =>
          match idxByLowerName db.games (r.name.getD "") with
          | some k =>
              ({ db with games := modifyAt (fun g => attachBggToNameMatch g r i t) k db.games },
               { res with games_updated := res.games_updated + 1 })
          | none =>
              ({ db with
                  games := db.games ++ [newGameFromRecord db.next_game_id r i t]
                  next_game_id := db.next_game_id + 1 },
               { res with games_added := res.games_added + 1 })

/-- The whole per-record loop, in order received. -/
def processAll (db : Store) (res : SyncResult) (l : List GameData) (t : Nat) :
    Store × SyncResult :=
  l.foldl (fun p r => processRecord p.1 p.2 r t) (db, res)

/-- The result dictionary as initialized at the top of `sync_games_from_bgg`,
after `total_games` has been set to the collection length. -/
def initResult (n : Nat) : SyncResult :=
  { success := false, games_added := 0, games_updated := 0, errors := [],
    total_games := n }

/-- Source `crud.sync_games_from_bgg`.  `games_data` is what
`fetch_user_collection` returned (`none` models its `None`), `t` the value of
`datetime.utcnow()`, and `commitFails` whether the final `db.commit()` raises
(in which case `db.rollback()` restores the store as it was at entry, the
only prior commit point of this call). -/
def sync_games_from_bgg (db : Store) (games_data : Option (List GameData))
    (t : Nat) (commitFails : Bool) : Store × SyncResult :=
  match games_data with
  | none =>
      (db, { success := false, games_added := 0, games_updated := 0,
             errors := ["Failed to fetch collection"], total_games := 0 })
  | some l =>
      let p := processAll db (initResult l.length) l t
      if commitFails then
        (db, { p.2 with success := false, errors := p.2.errors ++ ["Sync failed"] })
      else
        (p.1, { p.2 with success := true })

/-! ### Catalog client (`bgg_integration.py`) -/

/-- The value of a decimal digit character. -/
def digitVal (c : Char) : Option Nat :=
  if '0' ≤ c ∧ c ≤ '9' then some (c.toNat - '0'.toNat) else none

/-- Read a digit run left to right; any non-digit fails the parse. -/
def digitsToNat (acc : Nat) : List Char → Option Nat
  | [] => some acc
  | c :: cs =>
      match digitVal c with
      | some d => digitsToNat (acc * 10 + d) cs
      | none => none

/-- Python `int(s)` on the digit strings the XML carries. -/
def pyInt (s : String) : Option Int :=
  match s.data with
  | [] => none
  | '-' :: cs => if cs = [] then none else (digitsToNat 0 cs).map (fun n => -(n : Int))
  | '+' :: cs => if cs = [] then none else (digitsToNat 0 cs).map (fun n => (n : Int))
  | cs => (digitsToNat 0 cs).map (fun n => (n : Int))

/-- Unsigned decimal mantissa, integer part and optional fraction. -/
def pyFloatCore (cs : List Char) : Option ℚ :=
  let a := cs.takeWhile (fun c => c ≠ '.')
  let rest := cs.dropWhile (fun c => c ≠ '.')
  match rest with
  | [] => if a = [] then none else (digitsToNat 0 a).map (fun n => (n : ℚ))
  | _ :: b =>
      if a = [] ∧ b = [] then none
      else
        match (if a = [] then some 0 else digitsToNat 0 a),
              (if b = [] then some 0 else digitsToNat 0 b) with
        | some ip, some fp => some ((ip : ℚ) + (fp : ℚ) / (10 : ℚ) ^ b.length)
        | _, _ => none

/-- Python `float(s)` on the decimal rating literals the XML carries (for
example `"7.25"`); other strings fail, which the source catches. -/
def pyFloat (s : String) : Option ℚ :=
  match s.data with
  | [] => none
  | '-' :: cs => (pyFloatCore cs).map (fun q => -q)
  | '+' :: cs => pyFloatCore cs
  | cs => pyFloatCore cs

/-- The `stats` child of a collection `item`: attribute strings plus the
`value` attribute of the nested `average` element.  `none` collapses
"element/attribute absent" with "text absent", which Python reads as `None`
through the same accesses. -/
structure RawStats where
  minplayers : Option String := none
  maxplayers : Option String := none
  playingtime : Option String := none
  average_value : Option String := none
deriving DecidableEq, Repr

/-- One `item` element of the collection XML, as `_extract_game_from_xml`
reads it. -/
structure RawItem where
  objectid : Option String := none
  name : Option String := none
  yearpublished : Option String := none
  thumbnail : Option String := none
  image : Option String := none
  stats : Option RawStats := none
deriving DecidableEq, Repr

/-- The rating extraction (`bgg_integration.py` lines 217-223): requires the
`average` element with a truthy `value`, maps the `'N/A'` sentinel and any
`float()` failure to `None` without failing the item. -/
def extractRating (st : RawStats) : Option ℚ :=
  match st.average_value with
  | none => none
  | some v =>
      if v = "" then none
      else if v = "N/A" then none
      else pyFloat v

/-- An optional integer attribute: absent or empty reads as `None`; a present
non-empty string that `int()` rejects raises, failing the whole item
(outer result `none`). -/
def optIntField (s : Option String) : Option (Option Int) :=
  match s with
  | none => some none
  | some str => if str = "" then some none else (pyInt str).map some

/-- Source `_extract_game_from_xml`: `none` when the item is dropped (missing or
empty `objectid` or name, or an `int()` failure escaping to the handler). -/
def extract_game_from_xml (item : RawItem) : Option GameData :=
  match item.objectid, item.name with
  | some ids, some nm =>
      if ids = "" ∨ nm = "" then none
      else
        match optIntField item.yearpublished with
        | none => none
        | some year =>
            let statsFields :=
              match item.stats with
              | none => some (none, none, none, none)
              | some st =>
                  match optIntField st.minplayers, optIntField st.maxplayers,
                        optIntField st.playingtime with
                  | some a, some b, some c => some (a, b, c, extractRating st)
                  | _, _, _ => none
            match statsFields with
            | none => none
            | some (minp, maxp, pt, rating) =>
                match pyInt ids with
                | none => none
                | some idv =>
                    some { bgg_id := some idv, name := some nm,
                           year_published := year,
                           thumbnail_url := item.thumbnail,
                           image_url := item.image,
                           min_players := minp, max_players := maxp,
                           playing_time := pt, bgg_rating := rating }
  | _, _ => none

/-- Source `_parse_collection_xml`: a body that fails `ET.fromstring` (`none`) yields
the empty list; otherwise each item is extracted and failing items skipped. -/
def parse_collection_xml (body : Option (List RawItem)) : List GameData :=
  match body with
  | none => []
  | some items => items.filterMap extract_game_from_xml

/-- What one network request can come back as: a timeout, another request
exception, or an HTTP status with a response body (only read on 200). -/
inductive NetResponse
  | timeout
  | exc
  | status (code : Nat) (body : Option (List RawItem))
deriving DecidableEq

/-- The retry loop body of `fetch_user_collection` (lines 85-135).  `attempt`
is the loop index, `fuel` the remaining iterations (`max_retries - attempt`).
Returns the Python return value together with the number of requests issued. -/
def fetchGo (responses : Nat → NetResponse) (max_retries : Nat) :
    Nat → Nat → Option (List GameData) × Nat
  | _, 0 => (none, 0)
  | attempt, fuel + 1 =>
      match responses attempt with
      | NetResponse.timeout =>
          if attempt < max_retries - 1 then
            let p := fetchGo responses max_retries (attempt + 1) fuel
            (p.1, p.2 + 1)
          else (none, 1)
      | NetResponse.exc =>
          if attempt < max_retries - 1 then
            let p := fetchGo responses max_retries (attempt + 1) fuel
            (p.1, p.2 + 1)
          else (none, 1)
      | NetResponse.status code body =>
          if code = 202 then
            let p := fetchGo responses max_retries (attempt + 1) fuel
            (p.1, p.2 + 1)
          else if code = 200 then (some (parse_collection_xml body), 1)
          else if code = 401 then (none, 1)
          else if code = 404 then (none, 1)
          else (none, 1)

/-- Source `fetch_user_collection(username, owned_only, max_retries)`: the network
environment is the stream `responses` of per-attempt outcomes.  Returns the
collection (or `None`) and how many requests were issued. -/
def fetch_user_collection (responses : Nat → NetResponse)
    (max_retries : Nat := 5) : Option (List GameData) × Nat :=
  fetchGo responses max_retries 0 max_retries

/-- The configured `self.min_request_interval = 5` (`bgg_integration.py` line 45). -/
def min_request_interval : ℚ := 5

/-- Source `_rate_limit` (lines 48-55) under an idealized monotone clock with exact
sleeps: given `last_request_time` and the entry time `now`, returns the sleep
performed and the new `last_request_time`, which is the issue timestamp of
the request about to be sent. -/
def rate_limit (last_request_time now : ℚ) : ℚ × ℚ :=
  let elapsed := now - last_request_time
  let sleep_time :=
    if elapsed < min_request_interval then min_request_interval - elapsed else 0
  (sleep_time, now + sleep_time)

/-! ### Store invariants (`models.py`: `bgg_id` unique when present, and the
case-insensitive name uniqueness the CRUD layer enforces) -/

/-- The external ids present in the store, in row order. -/
def bggIds (games : List Game) : List Int :=
  games.filterMap (fun g => g.bgg_id)

/-- At most one `Game` row per `external_id`. -/
def BggUnique (games : List Game) : Prop :=
  (bggIds games).Nodup

/-- The case-folded names of the store, in row order. -/
def namesLower (games : List Game) : List String :=
  games.map (fun g => pyLower g.name)

/-- At most one `Game` row per case-insensitive name. -/
def NameUnique (games : List Game) : Prop :=
  (namesLower games).Nodup

instance (games : List Game) : Decidable (BggUnique games) := by
  unfold BggUnique; infer_instance

instance (games : List Game) : Decidable (NameUnique games) := by
  unfold NameUnique; infer_instance

/-- Some row carries exactly this record's external id and (case-folded)
name: the state a record leaves behind after its own reconciliation step. -/
def Est (r : GameData) (games : List Game) : Prop :=
  ∃ k : Nat, k < games.length ∧
    (games.getD k dGame).bgg_id = r.bgg_id ∧
    pyLower (games.getD k dGame).name = pyLower (r.name.getD "")

/-- A batch in which every record carries a nonzero external id and a name,
the external ids are pairwise distinct and the case-folded names are
pairwise distinct. -/
def distinctBatch (l : List GameData) : Prop :=
  (∀ r ∈ l, r.bgg_id ≠ none ∧ r.bgg_id ≠ some 0 ∧ r.name ≠ none) ∧
  l.Pairwise (fun r1 r2 => r1.bgg_id ≠ r2.bgg_id ∧
    pyLower (r1.name.getD "") ≠ pyLower (r2.name.getD ""))

instance (l : List GameData) : Decidable (distinctBatch l) := by
  unfold distinctBatch; infer_instance

/-! ### Step lemmas about the per-record loop -/

theorem processAll_nil (db : Store) (res : SyncResult) (t : Nat) :
    processAll db res [] t = (db, res) := rfl

theorem processAll_cons (db : Store) (res : SyncResult) (r : GameData)
    (rs : List GameData) (t : Nat) :
    processAll db res (r :: rs) t =
      processAll (processRecord db res r t).1 (processRecord db res r t).2 rs t := rfl

theorem processRecord_frame (db : Store) (res : SyncResult) (r : GameData) (t : Nat) :
    (processRecord db res r t).1.players = db.players ∧
    (processRecord db res r t).1.matchRows = db.matchRows := by
  unfold processRecord
  split
  · exact ⟨rfl, rfl⟩
  · split
    · exact ⟨rfl, rfl⟩
    · split
      · exact ⟨rfl, rfl⟩
      · exact ⟨rfl, rfl⟩

theorem processAll_frame (l : List GameData) (db : Store) (res : SyncResult) (t : Nat) :
    (processAll db res l t).1.players = db.players ∧
    (processAll db res l t).1.matchRows = db.matchRows := by
  induction l generalizing db res with
  | nil => exact ⟨rfl, rfl⟩
  | cons r rs ih =>
      rw [processAll_cons]
      rcases ih (processRecord db res r t).1 (processRecord db res r t).2 with ⟨h1, h2⟩
      rcases processRecord_frame db res r t with ⟨g1, g2⟩
      exact ⟨h1.trans g1, h2.trans g2⟩

/-! ### Concrete stores and batches used by witnesses and counterexamples -/

/-- The empty store. -/
def s0 : Store := { games := [], players := [], matchRows := [], next_game_id := 0 }

/-- A locally created game with no BGG link (the spec's "Catan" example). -/
def catanRow : Game := { id := 1, name := "Catan" }

/-- Store holding only the local "Catan" row. -/
def c3Store : Store :=
  { games := [catanRow], players := [], matchRows := [], next_game_id := 2 }

/-- The incoming record `\x7bexternal_id: 13, name: "catan"\x7d` of the spec's
name-collision example. -/
def catanRecord : GameData := { bgg_id := some 13, name := some "catan" }

/-- A game already linked to BGG id 5. -/
def chessRow : Game := { id := 0, name := "Chess", bgg_id := some 5 }

/-- Store with a BGG-linked "Chess" row and an unlinked "Catan" row; both
uniqueness invariants hold. -/
def c1Store : Store :=
  { games := [chessRow, catanRow], players := [], matchRows := [], next_game_id := 2 }

/-- A record matching "Chess" by external id while renaming it to "catan". -/
def c1Record : GameData := { bgg_id := some 5, name := some "catan" }

/-- A record carrying the well-formed integer id `0`. -/
def zeroRecord : GameData := { bgg_id := some 0, name := some "X" }

/-- A batch with one duplicated external id and colliding names. -/
def collide3 : List GameData :=
  [ { bgg_id := some 1, name := some "A" },
    { bgg_id := some 2, name := some "A" },
    { bgg_id := some 2, name := some "C" } ]

/-! ### Claim theorems -/

/-- Claim C10: for every invocation and every starting store state,
`sync_games_from_bgg` never creates, deletes, or modifies any `Player` or
`Match` row — the players and matches tables are identical before and after
the call; only `Game` rows are written. -/
theorem c10_sync_only_writes_games (db : Store) (gd : Option (List GameData))
    (t : Nat) (c : Bool) :
    (sync_games_from_bgg db gd t c).1.players = db.players ∧
    (sync_games_from_bgg db gd t c).1.matchRows = db.matchRows := by
  cases gd with
  | none => exact ⟨rfl, rfl⟩
  | some l =>
      cases c with
      | true => exact ⟨rfl, rfl⟩
      | false =>
          simpa [sync_games_from_bgg] using
            processAll_frame l db (initResult l.length) t

theorem fetchGo_202 (responses : Nat → NetResponse)
    (body : Option (List RawItem)) (m : Nat)
    (hresp : ∀ n, responses n = NetResponse.status 202 body) :
    ∀ fuel attempt, fetchGo responses m attempt fuel = (none, fuel) := by
  intro fuel
  induction fuel with
  | zero => intro attempt; rfl
  | succ f ih =>
      intro attempt
      simp [fetchGo, hresp, ih]

/-- Claim C7: if the upstream responds 202 ("processing") on every request,
`fetch_user_collection` makes exactly `max_retries` attempts — never more —
(sleeping the fixed five-second delay after each queued response) and then
returns the failure value `None`. -/
theorem c7_processing_retry_bound (body : Option (List RawItem)) (m : Nat) :
    fetch_user_collection (fun _ => NetResponse.status 202 body) m = (none, m) :=
  fetchGo_202 (fun _ => NetResponse.status 202 body) body m (fun _ => rfl) m 0

/-- Claim C8: for two consecutive requests issued through the same client
instance, with `last` the previous request's issue timestamp (the stored
`last_request_time`) and `now` the time the next request arrives at
`_rate_limit`, the new issue timestamp is `max (last + 5) now`, hence at
least the minimum interval after `last`; a request arriving before the
interval has elapsed performs a positive blocking sleep. -/
theorem c8_rate_limit_gap (last now : ℚ) :
    min_request_interval ≤ (rate_limit last now).2 - last ∧
    (rate_limit last now).2 = max (last + min_request_interval) now ∧
    (now - last < min_request_interval → 0 < (rate_limit last now).1) := by
  unfold rate_limit
  dsimp only
  split_ifs with h
  · refine ⟨by linarith, ?_, fun _ => by linarith⟩
    rw [max_eq_left (by linarith)]
    ring
  · refine ⟨by linarith, ?_, fun hy => absurd hy h⟩
    rw [max_eq_right (by linarith)]
    ring

/-- Witness for C8 at `last = 0`, `now = 2`: the early request sleeps a
positive amount. -/
theorem c8_rate_limit_gap_witness : (0 : ℚ) < (rate_limit 0 2).1 :=
  (c8_rate_limit_gap 0 2).2.2 (by norm_num [min_request_interval])

/-- Claim C2: `SyncResult.success` is true iff the batch commit succeeded
(the fetch returned a collection and the final commit did not raise); when
the commit fails everything is rolled back — the store is exactly as at call
entry — and the result is `success = false` with an explanatory error; a
fetch failure likewise leaves the store untouched with `success = false`. -/
theorem c2_commit_atomicity (db : Store) (gd : Option (List GameData))
    (t : Nat) (c : Bool) :
    ((sync_games_from_bgg db gd t c).2.success = true ↔
      gd.isSome = true ∧ c = false) ∧
    (c = true → (sync_games_from_bgg db gd t c).1 = db ∧
      (sync_games_from_bgg db gd t c).2.success = false ∧
      (sync_games_from_bgg db gd t c).2.errors ≠ []) ∧
    (gd = none → (sync_games_from_bgg db gd t c).1 = db ∧
      (sync_games_from_bgg db gd t c).2.success = false) := by
  cases gd with
  | none => cases c <;> simp [sync_games_from_bgg]
  | some l => cases c <;> simp [sync_games_from_bgg]

/-- Witness for C2 on a concrete failing commit: the store is restored and
the result reports failure. -/
theorem c2_commit_atomicity_witness :
    (sync_games_from_bgg c3Store (some [catanRecord]) 7 true).1 = c3Store ∧
    (sync_games_from_bgg c3Store (some [catanRecord]) 7 true).2.success = false ∧
    (sync_games_from_bgg c3Store (some [catanRecord]) 7 true).2.errors ≠ [] :=
  (c2_commit_atomicity c3Store (some [catanRecord]) 7 true).2.1 rfl

/-- Claim C9: a record whose `bgg_id` is the integer `0` is treated by the
reconciler as having a missing id — the per-record error
`"Game missing BGG ID"` is appended, neither count moves, no row is created
or changed — even though the parser's missing-id filter passes the non-empty
attribute string `"0"` and produces exactly such a record. -/
theorem c9_zero_id_is_missing (db : Store) (res : SyncResult) (r : GameData)
    (t : Nat) (h : r.bgg_id = some 0) :
    processRecord db res r t =
      (db, { res with errors := res.errors ++
              ["Game missing BGG ID: " ++ r.name.getD "Unknown"] }) ∧
    sync_games_from_bgg db (some [r]) t false =
      (db, { success := true, games_added := 0, games_updated := 0,
             errors := ["Game missing BGG ID: " ++ r.name.getD "Unknown"],
             total_games := 1 }) ∧
    extract_game_from_xml { objectid := some "0", name := some "X" } =
      some { bgg_id := some 0, name := some "X" } := by
  have hp : processRecord db res r t =
      (db, { res with errors := res.errors ++
              ["Game missing BGG ID: " ++ r.name.getD "Unknown"] }) := by
    simp [processRecord, bggIdTruthy, h]
  refine ⟨hp, ?_, by decide⟩
  have hp1 : processRecord db
      { success := false, games_added := 0, games_updated := 0, errors := [],
        total_games := 1 } r t =
      (db, { success := false, games_added := 0, games_updated := 0,
             errors := ["Game missing BGG ID: " ++ r.name.getD "Unknown"],
             total_games := 1 }) := by
    simp [processRecord, bggIdTruthy, h]
  simp [sync_games_from_bgg, processAll, initResult, hp1]

/-- Witness for C9 at a concrete store and the record with id `0`. -/
theorem c9_zero_id_is_missing_witness :
    processRecord s0 (initResult 1) zeroRecord 5 =
      (s0, { initResult 1 with errors := ["Game missing BGG ID: X"] }) :=
  (c9_zero_id_is_missing s0 (initResult 1) zeroRecord 5 rfl).1

theorem fetchGo_retrying (responses : Nat → NetResponse) (m : Nat)
    (hresp : ∀ n, responses n = NetResponse.timeout ∨ responses n = NetResponse.exc) :
    ∀ fuel attempt, attempt + fuel = m → 1 ≤ fuel →
      fetchGo responses m attempt fuel = (none, fuel) := by
  intro fuel
  induction fuel with
  | zero => intro attempt _ hf; omega
  | succ f ih =>
      intro attempt hsum _
      rcases Nat.eq_zero_or_pos f with hf0 | hfpos
      · subst hf0
        have hlt : ¬ attempt < m - 1 := by omega
        rcases hresp attempt with hr | hr <;> simp [fetchGo, hr, hlt]
      · have hlt : attempt < m - 1 := by omega
        have hrec := ih (attempt + 1) (by omega) (by omega)
        rcases hresp attempt with hr | hr <;> simp [fetchGo, hr, hlt, hrec]

/-- Claim C4 (amended): timeouts and request exceptions are retried with the
same fixed-delay policy up to `max_retries` attempts and then surface as the
generic `None` failure; but an unexpected HTTP status is *not* retried — it
returns the generic failure after a single attempt — and a malformed 200
response body is not retried either: it parses to an empty, *successful*
collection.  No distinguished "exhausted retries" value exists. -/
theorem c4_transient_failures (m : Nat) (hm : 1 ≤ m)
    (responses : Nat → NetResponse) (code : Nat) (body : Option (List RawItem)) :
    fetch_user_collection (fun _ => NetResponse.timeout) m = (none, m) ∧
    fetch_user_collection (fun _ => NetResponse.exc) m = (none, m) ∧
    (responses 0 = NetResponse.status code body → code ≠ 202 → code ≠ 200 →
      code ≠ 401 → code ≠ 404 → fetch_user_collection responses m = (none, 1)) ∧
    (responses 0 = NetResponse.status 200 none →
      fetch_user_collection responses m = (some [], 1)) := by
  obtain ⟨f, rfl⟩ : ∃ f, m = f + 1 := ⟨m - 1, by omega⟩
  refine ⟨?_, ?_, ?_, ?_⟩
  · exact fetchGo_retrying _ _ (fun _ => Or.inl rfl) (f + 1) 0 (by omega) (by omega)
  · exact fetchGo_retrying _ _ (fun _ => Or.inr rfl) (f + 1) 0 (by omega) (by omega)
  · intro hr h202 h200 h401 h404
    simp [fetch_user_collection, fetchGo, hr, h202, h200, h401, h404]
  · intro hr
    simp [fetch_user_collection, fetchGo, hr, parse_collection_xml]

/-- Witness for C4 at `max_retries = 5`: a permanent timeout exhausts all
five attempts, and a 500 status fails after one. -/
theorem c4_transient_failures_witness :
    fetch_user_collection (fun _ => NetResponse.timeout) 5 = (none, 5) ∧
    fetch_user_collection (fun _ => NetResponse.status 500 none) 5 = (none, 1) :=
  ⟨(c4_transient_failures 5 (by decide) (fun _ => NetResponse.status 500 none)
      500 none).1,
   (c4_transient_failures 5 (by decide) (fun _ => NetResponse.status 500 none)
      500 none).2.2.1 rfl (by decide) (by decide) (by decide) (by decide)⟩

/-- Counterexample to claim C4 as stated: with an upstream that always
returns HTTP 500 (an unexpected status, hence a transient failure in the
claim's taxonomy) and `max_attempts = 5`, `fetch_user_collection` gives up
after a single attempt instead of five; and a malformed 200 body is not
retried at all — it comes back as a *successful* empty collection rather
than any failure. -/
theorem c4_counterexample :
    fetch_user_collection (fun _ => NetResponse.status 500 none) 5 = (none, 1) ∧
    (1 : Nat) ≠ 5 ∧
    fetch_user_collection (fun _ => NetResponse.status 200 none) 5 = (some [], 1) :=
  ⟨by decide, by decide, by decide⟩

/-- Claim C5 (amended): a definitive "not found" (404) and a definitive
"unauthorized" (401) response each make `fetch_user_collection` return
immediately after that single attempt, with no retry (and the client never
touches the store); but the two outcomes are not distinguished results —
both, like exhausted retries, return the same `None`. -/
theorem c5_definitive_no_retry (m : Nat) (hm : 1 ≤ m)
    (responses : Nat → NetResponse) (body : Option (List RawItem)) :
    (responses 0 = NetResponse.status 404 body →
      fetch_user_collection responses m = (none, 1)) ∧
    (responses 0 = NetResponse.status 401 body →
      fetch_user_collection responses m = (none, 1)) := by
  obtain ⟨f, rfl⟩ : ∃ f, m = f + 1 := ⟨m - 1, by omega⟩
  constructor
  · intro hr
    simp [fetch_user_collection, fetchGo, hr]
  · intro hr
    simp [fetch_user_collection, fetchGo, hr]

/-- Witness for C5: concrete always-404 and always-401 upstreams at
`max_retries = 5` return after exactly one attempt. -/
theorem c5_definitive_no_retry_witness :
    fetch_user_collection (fun _ => NetResponse.status 404 none) 5 = (none, 1) ∧
    fetch_user_collection (fun _ => NetResponse.status 401 none) 5 = (none, 1) :=
  ⟨(c5_definitive_no_retry 5 (by decide) (fun _ => NetResponse.status 404 none)
      none).1 rfl,
   (c5_definitive_no_retry 5 (by decide) (fun _ => NetResponse.status 401 none)
      none).2 rfl⟩

/-- Counterexample to claim C5 as stated: the "not found", "unauthorized"
and "exhausted retries" outcomes are all the same value `None` — they are
not distinct results. -/
theorem c5_counterexample :
    (fetch_user_collection (fun _ => NetResponse.status 404 none) 5).1 =
      (fetch_user_collection (fun _ => NetResponse.status 401 none) 5).1 ∧
    (fetch_user_collection (fun _ => NetResponse.status 401 none) 5).1 =
      (fetch_user_collection (fun _ => NetResponse.status 202 none) 5).1 :=
  ⟨by decide, by decide⟩

/-! ### Preservation of the external-id invariant -/

theorem mem_bggIds {l : List Game} {j : Int} :
    j ∈ bggIds l ↔ ∃ g ∈ l, g.bgg_id = some j := by
  simp [bggIds, List.mem_filterMap]

theorem bggIds_cons_some {g : Game} {l : List Game} {b : Int}
    (h : g.bgg_id = some b) : bggIds (g :: l) = b :: bggIds l := by
  simp [bggIds, List.filterMap_cons, h]

theorem bggIds_cons_none {g : Game} {l : List Game}
    (h : g.bgg_id = none) : bggIds (g :: l) = bggIds l := by
  simp [bggIds, List.filterMap_cons, h]

theorem nodup_bggIds_tail {g : Game} {l : List Game}
    (h : (bggIds (g :: l)).Nodup) : (bggIds l).Nodup := by
  cases hx : g.bgg_id with
  | none => rwa [bggIds_cons_none hx] at h
  | some b => rw [bggIds_cons_some hx] at h; exact h.of_cons

theorem bggIds_modifyAt_preserve (f : Game → Game)
    (hf : ∀ g, (f g).bgg_id = g.bgg_id) (l : List Game) (k : Nat) :
    bggIds (modifyAt f k l) = bggIds l := by
  induction l generalizing k with
  | nil => cases k <;> rfl
  | cons x xs ih =>
      cases k with
      | zero =>
          show bggIds (f x :: xs) = bggIds (x :: xs)
          cases hx : x.bgg_id with
          | none => rw [bggIds_cons_none (by rw [hf x, hx]), bggIds_cons_none hx]
          | some b => rw [bggIds_cons_some (by rw [hf x, hx]), bggIds_cons_some hx]
      | succ k =>
          show bggIds (x :: modifyAt f k xs) = bggIds (x :: xs)
          cases hx : x.bgg_id with
          | none => rw [bggIds_cons_none hx, bggIds_cons_none hx, ih k]
          | some b => rw [bggIds_cons_some hx, bggIds_cons_some hx, ih k]

theorem mem_bggIds_modifyAt_attach (f : Game → Game) (i : Int)
    (hf : ∀ g, (f g).bgg_id = some i) (l : List Game) (k : Nat) (j : Int)
    (hj : j ∈ bggIds (modifyAt f k l)) : j ∈ bggIds l ∨ j = i := by
  induction l generalizing k with
  | nil =>
      cases k with
      | zero =>
          rw [show modifyAt f 0 ([] : List Game) = [] from rfl] at hj
          simp [bggIds] at hj
      | succ k =>
          rw [show modifyAt f (k + 1) ([] : List Game) = [] from rfl] at hj
          simp [bggIds] at hj
  | cons x xs ih =>
      cases k with
      | zero =>
          rw [show modifyAt f 0 (x :: xs) = f x :: xs from rfl,
              bggIds_cons_some (hf x), List.mem_cons] at hj
          rcases hj with hj | hj
          · exact Or.inr hj
          · left
            cases hx : x.bgg_id with
            | none => rwa [bggIds_cons_none hx]
            | some b => rw [bggIds_cons_some hx]; exact List.mem_cons_of_mem _ hj
      | succ k =>
          rw [show modifyAt f (k + 1) (x :: xs) = x :: modifyAt f k xs from rfl] at hj
          cases hx : x.bgg_id with
          | none =>
              rw [bggIds_cons_none hx] at hj
              rcases ih k hj with hj | hj
              · left; rwa [bggIds_cons_none hx]
              · exact Or.inr hj
          | some b =>
              rw [bggIds_cons_some hx, List.mem_cons] at hj
              rcases hj with hj | hj
              · left
                rw [bggIds_cons_some hx, hj]
                exact List.mem_cons_self _ _
              · rcases ih k hj with hj2 | hj2
                · left; rw [bggIds_cons_some hx]; exact List.mem_cons_of_mem _ hj2
                · exact Or.inr hj2

theorem nodup_bggIds_modifyAt_attach (f : Game → Game) (i : Int)
    (hf : ∀ g, (f g).bgg_id = some i) (l : List Game) (k : Nat)
    (hni : ∀ g ∈ l, g.bgg_id ≠ some i) (h : (bggIds l).Nodup) :
    (bggIds (modifyAt f k l)).Nodup := by
  induction l generalizing k with
  | nil => cases k <;> exact h
  | cons x xs ih =>
      cases k with
      | zero =>
          rw [show modifyAt f 0 (x :: xs) = f x :: xs from rfl,
              bggIds_cons_some (hf x), List.nodup_cons]
          constructor
          · intro hmem
            rcases mem_bggIds.mp hmem with ⟨g, hg, hgi⟩
            exact hni g (List.mem_cons_of_mem _ hg) hgi
          · exact nodup_bggIds_tail h
      | succ k =>
          rw [show modifyAt f (k + 1) (x :: xs) = x :: modifyAt f k xs from rfl]
          have hxs : ∀ g ∈ xs, g.bgg_id ≠ some i :=
            fun g hg => hni g (List.mem_cons_of_mem _ hg)
          cases hx : x.bgg_id with
          | none =>
              rw [bggIds_cons_none hx]
              exact ih k hxs (nodup_bggIds_tail h)
          | some b =>
              rw [bggIds_cons_some hx, List.nodup_cons]
              refine ⟨?_, ih k hxs (nodup_bggIds_tail h)⟩
              intro hmem
              rcases mem_bggIds_modifyAt_attach f i hf xs k b hmem with hb | hb
              · rw [bggIds_cons_some hx] at h
                exact (List.nodup_cons.mp h).1 hb
              · exact hni x (List.mem_cons_self _ _) (by rw [hx, hb])

theorem bggIds_append_single (l : List Game) (g : Game) {b : Int}
    (h : g.bgg_id = some b) : bggIds (l ++ [g]) = bggIds l ++ [b] := by
  simp [bggIds, List.filterMap_append, List.filterMap_cons, h]

theorem processRecord_BggUnique (db : Store) (res : SyncResult) (r : GameData)
    (t : Nat) (h : BggUnique db.games) :
    BggUnique (processRecord db res r t).1.games := by
  unfold processRecord
  split
  · exact h
  · rename_i i hi
    split
    · rename_i k hk
      show BggUnique (modifyAt (fun g => updateFromRecord g r t) k db.games)
      unfold BggUnique
      rw [bggIds_modifyAt_preserve (fun g => updateFromRecord g r t)
            (fun g => rfl) db.games k]
      exact h
    · rename_i hnone
      have hni : ∀ g ∈ db.games, g.bgg_id ≠ some i := by
        intro g hg
        have hfalse := firstIdxWhere_none hnone g hg
        simpa using hfalse
      split
      · rename_i k hk
        show BggUnique (modifyAt (fun g => attachBggToNameMatch g r i t) k db.games)
        exact nodup_bggIds_modifyAt_attach (fun g => attachBggToNameMatch g r i t)
          i (fun g => rfl) db.games k hni h
      · show BggUnique (db.games ++ [newGameFromRecord db.next_game_id r i t])
        unfold BggUnique
        rw [bggIds_append_single db.games (newGameFromRecord db.next_game_id r i t)
              (rfl : (newGameFromRecord db.next_game_id r i t).bgg_id = some i)]
        refine List.Nodup.append h (List.nodup_singleton i) ?_
        intro a ha hamem
        rcases mem_bggIds.mp ha with ⟨g, hg, hgi⟩
        have hai : a = i := by simpa using hamem
        exact hni g hg (hai ▸ hgi)

theorem processAll_BggUnique (l : List GameData) (db : Store)
    (res : SyncResult) (t : Nat) (h : BggUnique db.games) :
    BggUnique (processAll db res l t).1.games := by
  induction l generalizing db res with
  | nil => exact h
  | cons r rs ih =>
      rw [processAll_cons]
      exact ih (processRecord db res r t).1 (processRecord db res r t).2
        (processRecord_BggUnique db res r t h)

/-- Claim C1 (amended): for every batch and every starting store with at
most one `Game` row per `external_id`, the store after
`sync_games_from_bgg` again has at most one `Game` row per `external_id`.
The case-insensitive-name half of the claim does not hold: an
external-id-matched update overwrites the matched row's name with the
record's name and can thereby collide with another row's name. -/
theorem c1_bgg_id_unique_preserved (db : Store) (gd : Option (List GameData))
    (t : Nat) (c : Bool) (h : BggUnique db.games) :
    BggUnique ((sync_games_from_bgg db gd t c).1.games) := by
  cases gd with
  | none => exact h
  | some l =>
      cases c with
      | true => exact h
      | false =>
          show BggUnique (processAll db (initResult l.length) l t).1.games
          exact processAll_BggUnique l db (initResult l.length) t h

/-- Witness for C1 on the concrete two-row store and one-record batch. -/
theorem c1_bgg_id_unique_preserved_witness :
    BggUnique ((sync_games_from_bgg c1Store (some [c1Record]) 3 false).1.games) :=
  c1_bgg_id_unique_preserved c1Store (some [c1Record]) 3 false (by decide)

/-- Counterexample to claim C1 as stated: the starting store (a BGG-linked
"Chess" row and an unlinked "Catan" row) satisfies both invariants, yet after
syncing the single record `\x7bexternal_id: 5, name: "catan"\x7d` — which matches
"Chess" by external id and renames it — two rows share the case-insensitive
name "catan", so the name invariant is violated. -/
theorem c1_counterexample :
    BggUnique c1Store.games ∧ NameUnique c1Store.games ∧
    ¬ NameUnique (sync_games_from_bgg c1Store (some [c1Record]) 3 false).1.games := by
  refine ⟨by decide, by decide, by decide⟩

/-- Claim C3 (amended): whenever a record's external id matches no existing
game but its name matches an existing game case-insensitively, sync updates
that row in place — attaching the record's external id, overwriting the
enrichment fields *other than the name* (year, urls, player counts, playing
time, rating), setting the provenance flag and last-synchronized time,
counting the record as updated, and creating no new row.  The existing row's
name is left unchanged, not overwritten from the record. -/
theorem c3_name_collision_merge (db : Store) (res : SyncResult) (r : GameData)
    (t : Nat) (i : Int) (k : Nat)
    (hid : r.bgg_id = some i) (hnz : i ≠ 0)
    (hno : idxByBggId db.games i = none)
    (hk : idxByLowerName db.games (r.name.getD "") = some k) :
    processRecord db res r t =
      ({ db with games := modifyAt (fun g => attachBggToNameMatch g r i t) k db.games },
       { res with games_updated := res.games_updated + 1 }) ∧
    (modifyAt (fun g => attachBggToNameMatch g r i t) k db.games).length
      = db.games.length ∧
    (∀ g : Game,
      (attachBggToNameMatch g r i t).name = g.name ∧
      (attachBggToNameMatch g r i t).bgg_id = some i ∧
      (attachBggToNameMatch g r i t).year_published = r.year_published ∧
      (attachBggToNameMatch g r i t).thumbnail_url = r.thumbnail_url ∧
      (attachBggToNameMatch g r i t).image_url = r.image_url ∧
      (attachBggToNameMatch g r i t).min_players = r.min_players ∧
      (attachBggToNameMatch g r i t).max_players = r.max_players ∧
      (attachBggToNameMatch g r i t).playing_time = r.playing_time ∧
      (attachBggToNameMatch g r i t).bgg_rating = r.bgg_rating ∧
      (attachBggToNameMatch g r i t).is_from_bgg = true ∧
      (attachBggToNameMatch g r i t).last_synced = some t) := by
  refine ⟨?_, length_modifyAt _ k db.games, fun g =>
    ⟨rfl, rfl, rfl, rfl, rfl, rfl, rfl, rfl, rfl, rfl, rfl⟩⟩
  simp [processRecord, bggIdTruthy, hid, hnz, hno, hk]

/-- Witness for C3 at the spec's own example: local "Catan" with no BGG id,
incoming record with external id 13 named "catan". -/
theorem c3_name_collision_merge_witness :
    processRecord c3Store (initResult 1) catanRecord 7 =
      ({ c3Store with
          games := modifyAt (fun g => attachBggToNameMatch g catanRecord 13 7) 0
            c3Store.games },
       { initResult 1 with games_updated := 1 }) :=
  (c3_name_collision_merge c3Store (initResult 1) catanRecord 7 13 0 rfl
    (by decide) (by decide) (by decide)).1

/-- Counterexample to claim C3 as stated: on the spec's example (local
"Catan" without external id, incoming `\x7bexternal_id: 13, name: "catan"\x7d`),
the merged row keeps the name "Catan" — the claim's assertion that the name
is overwritten from the record fails — while the counts and row count match
the rest of the claim. -/
theorem c3_counterexample :
    ((sync_games_from_bgg c3Store (some [catanRecord]) 7 false).1.games.getD 0
        dGame).name = "Catan" ∧
    ("Catan" : String) ≠ "catan" ∧
    (sync_games_from_bgg c3Store (some [catanRecord]) 7 false).2.games_updated = 1 ∧
    (sync_games_from_bgg c3Store (some [catanRecord]) 7 false).2.games_added = 0 ∧
    (sync_games_from_bgg c3Store (some [catanRecord]) 7 false).1.games.length = 1 :=
  ⟨by decide, by decide, by decide, by decide, by decide⟩

/-! ### Second-pass idempotence machinery -/

theorem bggIdTruthy_eq_some {o : Option Int} {i : Int}
    (h : bggIdTruthy o = some i) : o = some i ∧ i ≠ 0 := by
  cases o with
  | none => simp [bggIdTruthy] at h
  | some j =>
      by_cases hj : j = 0
      · simp [bggIdTruthy, hj] at h
      · simp only [bggIdTruthy, if_neg hj, Option.some.injEq] at h
        subst h
        exact ⟨rfl, hj⟩

theorem bggId_cases {o : Option Int} (hn : o ≠ none) (h0 : o ≠ some 0) :
    ∃ i, o = some i ∧ i ≠ 0 := by
  cases o with
  | none => exact absurd rfl hn
  | some j => exact ⟨j, rfl, fun hj => h0 (by rw [hj])⟩

theorem est_after (db : Store) (res : SyncResult) (r : GameData) (t : Nat)
    (hn : r.bgg_id ≠ none) (h0 : r.bgg_id ≠ some 0) (hm : r.name ≠ none) :
    Est r (processRecord db res r t).1.games := by
  obtain ⟨i, hi, hinz⟩ := bggId_cases hn h0
  obtain ⟨nm, hnm⟩ : ∃ nm, r.name = some nm := by
    cases hx : r.name with
    | none => exact absurd hx hm
    | some nm => exact ⟨nm, rfl⟩
  rcases hA : idxByBggId db.games i with _ | k
  · rcases hB : idxByLowerName db.games (r.name.getD "") with _ | k
    · have hstep : processRecord db res r t =
          ({ db with
              games := db.games ++ [newGameFromRecord db.next_game_id r i t]
              next_game_id := db.next_game_id + 1 },
           { res with games_added := res.games_added + 1 }) := by
        simp [processRecord, bggIdTruthy, hi, hinz, hA, hB]
      rw [hstep]
      show Est r (db.games ++ [newGameFromRecord db.next_game_id r i t])
      refine ⟨db.games.length, by simp, ?_, ?_⟩
      · rw [getD_append_last]
        show some i = r.bgg_id
        rw [hi]
      · rw [getD_append_last]
        show pyLower (r.name.getD "Unknown") = pyLower (r.name.getD "")
        rw [hnm]
        rfl
    · have hklt := firstIdxWhere_some_lt hB
      have hsat := firstIdxWhere_some_sat dGame hB
      have hstep : processRecord db res r t =
          ({ db with games := modifyAt (fun g => attachBggToNameMatch g r i t) k db.games },
           { res with games_updated := res.games_updated + 1 }) := by
        simp [processRecord, bggIdTruthy, hi, hinz, hA, hB]
      rw [hstep]
      show Est r (modifyAt (fun g => attachBggToNameMatch g r i t) k db.games)
      refine ⟨k, by rw [length_modifyAt]; exact hklt, ?_, ?_⟩
      · rw [getD_modifyAt_self _ _ _ _ hklt]
        show some i = r.bgg_id
        rw [hi]
      · rw [getD_modifyAt_self _ _ _ _ hklt]
        show pyLower (db.games.getD k dGame).name = pyLower (r.name.getD "")
        exact eq_of_beq hsat
  · have hklt := firstIdxWhere_some_lt hA
    have hsat := firstIdxWhere_some_sat dGame hA
    have hstep : processRecord db res r t =
        ({ db with games := modifyAt (fun g => updateFromRecord g r t) k db.games },
         { res with games_updated := res.games_updated + 1 }) := by
      simp [processRecord, bggIdTruthy, hi, hinz, hA]
    rw [hstep]
    show Est r (modifyAt (fun g => updateFromRecord g r t) k db.games)
    refine ⟨k, by rw [length_modifyAt]; exact hklt, ?_, ?_⟩
    · rw [getD_modifyAt_self _ _ _ _ hklt]
      show (db.games.getD k dGame).bgg_id = r.bgg_id
      have hkb : (db.games.getD k dGame).bgg_id = some i := eq_of_beq hsat
      rw [hkb, hi]
    · rw [getD_modifyAt_self _ _ _ _ hklt]
      show pyLower (r.name.getD (db.games.getD k dGame).name) = pyLower (r.name.getD "")
      rw [hnm]
      rfl

theorem est_preserved_step (db : Store) (res : SyncResult) (rp : GameData)
    (t : Nat) (r : GameData) (hE : Est r db.games)
    (hb : rp.bgg_id ≠ r.bgg_id)
    (hn2 : pyLower (rp.name.getD "") ≠ pyLower (r.name.getD "")) :
    Est r (processRecord db res rp t).1.games := by
  obtain ⟨w, hw, hwb, hwn⟩ := hE
  rcases hT : bggIdTruthy rp.bgg_id with _ | i
  · have hstep : (processRecord db res rp t).1 = db := by
      simp [processRecord, hT]
    rw [hstep]
    exact ⟨w, hw, hwb, hwn⟩
  · obtain ⟨hpi, hinz⟩ := bggIdTruthy_eq_some hT
    rcases hA : idxByBggId db.games i with _ | k
    · rcases hB : idxByLowerName db.games (rp.name.getD "") with _ | k
      · have hstep : processRecord db res rp t =
            ({ db with
                games := db.games ++ [newGameFromRecord db.next_game_id rp i t]
                next_game_id := db.next_game_id + 1 },
             { res with games_added := res.games_added + 1 }) := by
          simp [processRecord, bggIdTruthy, hpi, hinz, hA, hB]
        rw [hstep]
        show Est r (db.games ++ [newGameFromRecord db.next_game_id rp i t])
        refine ⟨w, ?_, ?_, ?_⟩
        · simp only [List.length_append, List.length_cons, List.length_nil]
          omega
        · rw [getD_append_left _ _ _ _ hw]; exact hwb
        · rw [getD_append_left _ _ _ _ hw]; exact hwn
      · have hsat := firstIdxWhere_some_sat dGame hB
        have hwk : w ≠ k := by
          intro he
          subst he
          have heq : pyLower (db.games.getD w dGame).name
              = pyLower (rp.name.getD "") := eq_of_beq hsat
          exact hn2 (by rw [← heq, hwn])
        have hstep : processRecord db res rp t =
            ({ db with games := modifyAt (fun g => attachBggToNameMatch g rp i t) k db.games },
             { res with games_updated := res.games_updated + 1 }) := by
          simp [processRecord, bggIdTruthy, hpi, hinz, hA, hB]
        rw [hstep]
        show Est r (modifyAt (fun g => attachBggToNameMatch g rp i t) k db.games)
        refine ⟨w, by rw [length_modifyAt]; exact hw, ?_, ?_⟩
        · rw [getD_modifyAt_ne _ _ _ _ _ hwk]; exact hwb
        · rw [getD_modifyAt_ne _ _ _ _ _ hwk]; exact hwn
    · have hsat := firstIdxWhere_some_sat dGame hA
      have hwk : w ≠ k := by
        intro he
        subst he
        have heq : (db.games.getD w dGame).bgg_id = some i := eq_of_beq hsat
        exact hb (by rw [hpi, ← heq, hwb])
      have hstep : processRecord db res rp t =
          ({ db with games := modifyAt (fun g => updateFromRecord g rp t) k db.games },
           { res with games_updated := res.games_updated + 1 }) := by
        simp [processRecord, bggIdTruthy, hpi, hinz, hA]
      rw [hstep]
      show Est r (modifyAt (fun g => updateFromRecord g rp t) k db.games)
      refine ⟨w, by rw [length_modifyAt]; exact hw, ?_, ?_⟩
      · rw [getD_modifyAt_ne _ _ _ _ _ hwk]; exact hwb
      · rw [getD_modifyAt_ne _ _ _ _ _ hwk]; exact hwn

theorem est_preserved_all (l : List GameData) (db : Store) (res : SyncResult)
    (t : Nat) (r : GameData) (hE : Est r db.games)
    (hdist : ∀ rp ∈ l, rp.bgg_id ≠ r.bgg_id ∧
      pyLower (rp.name.getD "") ≠ pyLower (r.name.getD "")) :
    Est r (processAll db res l t).1.games := by
  induction l generalizing db res with
  | nil => exact hE
  | cons x xs ih =>
      rw [processAll_cons]
      refine ih (processRecord db res x t).1 (processRecord db res x t).2 ?_
        (fun rp hrp => hdist rp (List.mem_cons_of_mem _ hrp))
      exact est_preserved_step db res x t r hE
        (hdist x (List.mem_cons_self _ _)).1 (hdist x (List.mem_cons_self _ _)).2

theorem pass1_est (l : List GameData) (db : Store) (res : SyncResult) (t : Nat)
    (hall : ∀ r ∈ l, r.bgg_id ≠ none ∧ r.bgg_id ≠ some 0 ∧ r.name ≠ none)
    (hpw : l.Pairwise (fun r1 r2 => r1.bgg_id ≠ r2.bgg_id ∧
      pyLower (r1.name.getD "") ≠ pyLower (r2.name.getD ""))) :
    ∀ r ∈ l, Est r (processAll db res l t).1.games := by
  induction l generalizing db res with
  | nil => intro r hr; simp at hr
  | cons x xs ih =>
      intro r hr
      rw [processAll_cons]
      rcases List.mem_cons.mp hr with hrx | hr
      · subst hrx
        obtain ⟨hxn, hx0, hxm⟩ := hall r (List.mem_cons_self _ _)
        refine est_preserved_all xs _ _ t r
          (est_after db res r t hxn hx0 hxm) ?_
        intro rp hrp
        have hd := (List.pairwise_cons.mp hpw).1 rp hrp
        exact ⟨Ne.symm hd.1, fun h2 => hd.2 h2.symm⟩
      · exact ih (processRecord db res x t).1 (processRecord db res x t).2
          (fun r2 hr2 => hall r2 (List.mem_cons_of_mem _ hr2))
          (List.pairwise_cons.mp hpw).2 r hr

theorem pass2_count (l : List GameData) (db : Store) (res : SyncResult) (t : Nat)
    (hall : ∀ r ∈ l, (r.bgg_id ≠ none ∧ r.bgg_id ≠ some 0 ∧ r.name ≠ none) ∧
      Est r db.games)
    (hpw : l.Pairwise (fun r1 r2 => r1.bgg_id ≠ r2.bgg_id ∧
      pyLower (r1.name.getD "") ≠ pyLower (r2.name.getD ""))) :
    (processAll db res l t).2.games_added = res.games_added ∧
    (processAll db res l t).2.games_updated = res.games_updated + l.length := by
  induction l generalizing db res with
  | nil => exact ⟨rfl, rfl⟩
  | cons x xs ih =>
      rw [processAll_cons]
      obtain ⟨⟨hxn, hx0, hxm⟩, hxE⟩ := hall x (List.mem_cons_self _ _)
      obtain ⟨i, hi, hinz⟩ := bggId_cases hxn hx0
      obtain ⟨w, hw, hwb, hwn⟩ := hxE
      have hA : idxByBggId db.games i ≠ none := by
        refine firstIdxWhere_isSome_of_sat dGame hw ?_
        show ((db.games.getD w dGame).bgg_id == some i) = true
        rw [hwb, hi]
        exact beq_self_eq_true _
      rcases hAk : idxByBggId db.games i with _ | k
      · exact absurd hAk hA
      · have hstep : processRecord db res x t =
            ({ db with games := modifyAt (fun g => updateFromRecord g x t) k db.games },
             { res with games_updated := res.games_updated + 1 }) := by
          simp [processRecord, bggIdTruthy, hi, hinz, hAk]
        rw [hstep]
        have hall2 : ∀ r ∈ xs,
            (r.bgg_id ≠ none ∧ r.bgg_id ≠ some 0 ∧ r.name ≠ none) ∧
            Est r (modifyAt (fun g => updateFromRecord g x t) k db.games) := by
          intro r hr
          refine ⟨(hall r (List.mem_cons_of_mem _ hr)).1, ?_⟩
          have hd := (List.pairwise_cons.mp hpw).1 r hr
          have hpres := est_preserved_step db res x t r
            (hall r (List.mem_cons_of_mem _ hr)).2 hd.1 hd.2
          rw [hstep] at hpres
          exact hpres
        have hrec := ih (modifyAt (fun g => updateFromRecord g x t) k db.games
            |> fun gs => { db with games := gs })
          { res with games_updated := res.games_updated + 1 }
          hall2 (List.pairwise_cons.mp hpw).2
        refine ⟨hrec.1, ?_⟩
        rw [hrec.2]
        simp [List.length_cons]
        omega

/-- Claim C6 (amended): for every starting store, syncing the same
collection twice (both commits succeeding) yields `games_added = 0` and
`games_updated = len(collection)` on the second call, *provided* every
record carries a name and a nonzero external id, the external ids are
pairwise distinct, and the case-insensitive names are pairwise distinct.
Without those provisos the property fails: a record with external id `0` is
never counted updated, and a batch with a duplicated id or colliding names
can make the second call re-create a row. -/
theorem c6_second_sync_counts (db : Store) (l : List GameData) (t1 t2 : Nat)
    (h : distinctBatch l) :
    (sync_games_from_bgg (sync_games_from_bgg db (some l) t1 false).1
        (some l) t2 false).2.games_added = 0 ∧
    (sync_games_from_bgg (sync_games_from_bgg db (some l) t1 false).1
        (some l) t2 false).2.games_updated = l.length := by
  obtain ⟨hall, hpw⟩ := h
  have hest : ∀ r ∈ l,
      Est r (processAll db (initResult l.length) l t1).1.games :=
    pass1_est l db (initResult l.length) t1 hall hpw
  have hcount := pass2_count l (processAll db (initResult l.length) l t1).1
    (initResult l.length) t2 (fun r hr => ⟨hall r hr, hest r hr⟩) hpw
  constructor
  · show (processAll (processAll db (initResult l.length) l t1).1
        (initResult l.length) l t2).2.games_added = 0
    exact hcount.1
  · show (processAll (processAll db (initResult l.length) l t1).1
        (initResult l.length) l t2).2.games_updated = l.length
    rw [hcount.2]
    exact Nat.zero_add _

/-- Witness for C6 on a concrete one-record batch against the empty store. -/
theorem c6_second_sync_counts_witness :
    (sync_games_from_bgg (sync_games_from_bgg s0 (some [catanRecord]) 1 false).1
        (some [catanRecord]) 2 false).2.games_added = 0 ∧
    (sync_games_from_bgg (sync_games_from_bgg s0 (some [catanRecord]) 1 false).1
        (some [catanRecord]) 2 false).2.games_updated = 1 :=
  c6_second_sync_counts s0 [catanRecord] 1 2 (by decide)

/-- Counterexample to claim C6 as stated (for *every* collection): a
collection whose single record has external id `0` gives `games_updated = 0`
on the second call, not `len(collection) = 1`; and the three-record
collection with a duplicated external id and colliding names gives
`games_added = 1` on the second call, not `0`. -/
theorem c6_counterexample :
    (sync_games_from_bgg (sync_games_from_bgg s0 (some [zeroRecord]) 1 false).1
        (some [zeroRecord]) 2 false).2.games_updated = 0 ∧
    (0 : Nat) ≠ [zeroRecord].length ∧
    (sync_games_from_bgg (sync_games_from_bgg s0 (some collide3) 1 false).1
        (some collide3) 2 false).2.games_added = 1 ∧
    (1 : Nat) ≠ 0 :=
  ⟨by decide, by decide, by decide, by decide⟩

end BGR
